import Mathlib

/-!
Verification of the CircleCalc repository (src/area_calc.py) against its
specification.  Python floats are modelled as real numbers (`math.pi` becomes
`Real.pi`), Python ints as `ℤ`, Python strings as `String`, and a raised
`ValueError` as the error branch of `Except`.
-/

/-- The record returned by `calculate_circle_properties` (src/area_calc.py
lines 35-43): the dictionary with keys radius, angle_degrees, diameter,
circumference, area, sector_area and arc_length. -/
structure CircleProperties where
  radius : ℝ
  angle_degrees : ℝ
  diameter : ℝ
  circumference : ℝ
  area : ℝ
  sector_area : ℝ
  arc_length : ℝ

/-- Shallow embedding of `calculate_circle_properties(radius, angle_degrees)`
(src/area_calc.py lines 15-43).  The body is the straight-line computation
`diameter = 2 * radius`, `circumference = 2 * pi * radius`,
`area = pi * radius ** 2`, `sector_area = (angle_degrees / 360) * area`,
`arc_length = (angle_degrees / 360) * circumference`; the function contains
no validation and no error path. -/
noncomputable def calculate_circle_properties (radius : ℝ) (angle_degrees : ℝ) :
    CircleProperties :=
  ⟨radius, angle_degrees, 2 * radius, 2 * Real.pi * radius, Real.pi * radius ^ 2,
    (angle_degrees / 360) * (Real.pi * radius ^ 2),
    (angle_degrees / 360) * (2 * Real.pi * radius)⟩

/-- Calling the engine with the angle argument omitted: the declared default
value of `angle_degrees` in the signature on line 15 is 360. -/
noncomputable def calculate_circle_properties_default (radius : ℝ) : CircleProperties :=
  calculate_circle_properties radius 360

/-- The two `ValueError` conditions raised by `main` (src/area_calc.py lines
125-130). -/
inductive MainError where
  | invalidRadius
  | invalidAngle
deriving DecidableEq

/-- The validation-and-computation path of `main` (src/area_calc.py lines
124-133): first `radius <= 0` raises `ValueError("Radius must be positive")`,
then `angle <= 0 or angle > 360` raises `ValueError("Angle must be between 0
and 360 degrees")`, and only then is `calculate_circle_properties` called. -/
noncomputable def main_compute (radius : ℝ) (angle : ℝ) :
    Except MainError CircleProperties :=
  if radius ≤ 0 then Except.error MainError.invalidRadius
  else if angle ≤ 0 ∨ 360 < angle then Except.error MainError.invalidAngle
  else Except.ok (calculate_circle_properties radius angle)

/-- The angle value `main` supplies when the user enters an empty string at
the prompt on line 128: `float(input("Enter sector angle in degrees (default
= 40): ") or "40")` evaluates to 40.0. -/
def main_omitted_angle : ℝ := 40

/-- C3: for every radius r > 0 (and any angle), the record returned by
calculate_circle_properties satisfies diameter = 2·r, circumference = 2π·r
and area = π·r², exactly in real arithmetic (hence within any floating-point
tolerance). -/
theorem engine_basic_properties (r a : ℝ) (hr : 0 < r) :
    (calculate_circle_properties r a).diameter = 2 * r ∧
    (calculate_circle_properties r a).circumference = 2 * Real.pi * r ∧
    (calculate_circle_properties r a).area = Real.pi * r ^ 2 :=
  ⟨rfl, rfl, rfl⟩

theorem engine_basic_properties_witness :
    (0 : ℝ) < 10 ∧
    ((calculate_circle_properties 10 90).diameter = 2 * 10 ∧
     (calculate_circle_properties 10 90).circumference = 2 * Real.pi * 10 ∧
     (calculate_circle_properties 10 90).area = Real.pi * 10 ^ 2) :=
  ⟨by norm_num, engine_basic_properties 10 90 (by norm_num)⟩

/-- C4: for every radius r > 0 and angle 0 < a ≤ 360, the returned record
satisfies sector_area / area = a / 360 and arc_length / circumference =
a / 360. -/
theorem engine_sector_ratios (r a : ℝ) (hr : 0 < r) (ha1 : 0 < a) (ha2 : a ≤ 360) :
    (calculate_circle_properties r a).sector_area /
      (calculate_circle_properties r a).area = a / 360 ∧
    (calculate_circle_properties r a).arc_length /
      (calculate_circle_properties r a).circumference = a / 360 := by
  have hr0 : r ≠ 0 := ne_of_gt hr
  constructor
  · show (a / 360) * (Real.pi * r ^ 2) / (Real.pi * r ^ 2) = a / 360
    rw [mul_div_assoc, div_self (by positivity), mul_one]
  · show (a / 360) * (2 * Real.pi * r) / (2 * Real.pi * r) = a / 360
    rw [mul_div_assoc, div_self (by positivity), mul_one]

theorem engine_sector_ratios_witness :
    ((0 : ℝ) < 10 ∧ (0 : ℝ) < 90 ∧ (90 : ℝ) ≤ 360) ∧
    ((calculate_circle_properties 10 90).sector_area /
       (calculate_circle_properties 10 90).area = 90 / 360 ∧
     (calculate_circle_properties 10 90).arc_length /
       (calculate_circle_properties 10 90).circumference = 90 / 360) :=
  ⟨⟨by norm_num, by norm_num, by norm_num⟩,
    engine_sector_ratios 10 90 (by norm_num) (by norm_num) (by norm_num)⟩

/-- C5: for every radius r > 0, at angle 360 the sector degenerates exactly:
sector_area = area and arc_length = circumference (the ratio 360/360 is
exactly 1). -/
theorem engine_full_angle_degenerate (r : ℝ) (hr : 0 < r) :
    (calculate_circle_properties r 360).sector_area =
      (calculate_circle_properties r 360).area ∧
    (calculate_circle_properties r 360).arc_length =
      (calculate_circle_properties r 360).circumference := by
  constructor
  · show ((360 : ℝ) / 360) * (Real.pi * r ^ 2) = Real.pi * r ^ 2
    norm_num
  · show ((360 : ℝ) / 360) * (2 * Real.pi * r) = 2 * Real.pi * r
    norm_num

theorem engine_full_angle_degenerate_witness :
    (0 : ℝ) < 1 ∧
    ((calculate_circle_properties 1 360).sector_area =
       (calculate_circle_properties 1 360).area ∧
     (calculate_circle_properties 1 360).arc_length =
       (calculate_circle_properties 1 360).circumference) :=
  ⟨by norm_num, engine_full_angle_degenerate 1 (by norm_num)⟩

/-- C1 counterexample: the Geometry Engine itself rejects nothing.  On each of
the inputs the claim says the engine rejects (r = 0, r = -5, a = 0, a = 361)
`calculate_circle_properties` returns an ordinary record; no invalid-argument
condition exists in the function. -/
theorem engine_total_on_invalid_inputs :
    (calculate_circle_properties (-5) 360).diameter = -10 ∧
    (calculate_circle_properties 0 360).diameter = 0 ∧
    (calculate_circle_properties 1 0).sector_area = 0 ∧
    (calculate_circle_properties 1 361).sector_area = (361 / 360) * Real.pi := by
  refine ⟨?_, ?_, ?_, ?_⟩
  · show 2 * (-5 : ℝ) = -10
    norm_num
  · show 2 * (0 : ℝ) = 0
    norm_num
  · show ((0 : ℝ) / 360) * (Real.pi * 1 ^ 2) = 0
    norm_num
  · show ((361 : ℝ) / 360) * (Real.pi * 1 ^ 2) = (361 / 360) * Real.pi
    norm_num

/-- C1 amended: the invalid-argument rejection happens in `main`, not in the
engine: main's validation rejects r = 0 and r = -5 with the radius error and
(for a valid radius) a = 0 and a = 361 with the angle error, before the
engine is ever called. -/
theorem main_rejects_invalid_inputs :
    main_compute 0 40 = Except.error MainError.invalidRadius ∧
    main_compute (-5) 40 = Except.error MainError.invalidRadius ∧
    main_compute 1 0 = Except.error MainError.invalidAngle ∧
    main_compute 1 361 = Except.error MainError.invalidAngle := by
  refine ⟨?_, ?_, ?_, ?_⟩ <;> unfold main_compute <;> norm_num

/-- C7 counterexample: the console input collaborator does not supply 360
when the user enters nothing; the fallback string on line 128 is "40", so the
supplied angle is 40, which is not 360. -/
theorem console_default_is_forty :
    main_omitted_angle = 40 ∧ main_omitted_angle ≠ 360 := by
  unfold main_omitted_angle
  norm_num

/-- C7 amended: the Geometry Engine's interface does default the angle to 360
(a full circle), but the console input collaborator supplies 40, not 360,
when the user enters nothing. -/
theorem angle_defaults :
    (∀ r : ℝ, calculate_circle_properties_default r =
      calculate_circle_properties r 360) ∧
    main_omitted_angle = 40 :=
  ⟨fun _ => rfl, rfl⟩

/-- Python `range(a, b)` over the integers: the list a, a+1, ..., b-1, empty
when b ≤ a.  `draw_circle_ascii` iterates `range(-radius, radius + 1)` over
rows and `range(-2 * radius, 2 * radius + 1)` over columns. -/
def intRange (a b : ℤ) : List ℤ :=
  (List.range (b - a).toNat).map (fun (i : ℕ) => a + (i : ℤ))

/-- The fill test of `draw_circle_ascii` (src/area_calc.py lines 99-100):
`distance = sqrt((x / scale_x) ** 2 + y ** 2)` with `scale_x = 2`, and
`is_on_circle = abs(distance - radius) < 0.5`, in exact integer arithmetic.
Clearing the square root and the denominator 4 from
`abs(sqrt((x / 2) ^ 2 + y ^ 2) - radius) < 1 / 2` gives the bounds below;
the conjunct `0 ≤ radius` and the disjunct `radius ≤ 0` account for the
cases where `radius + 1 / 2` or `radius - 1 / 2` is negative.  The theorem
`is_on_circle_iff_dist` proves this equal to the source formula over ℝ. -/
def is_on_circle (radius x y : ℤ) : Bool :=
  decide ((0 ≤ radius ∧ x ^ 2 + 4 * y ^ 2 < (2 * radius + 1) ^ 2) ∧
    (radius ≤ 0 ∨ (2 * radius - 1) ^ 2 < x ^ 2 + 4 * y ^ 2))

/-- One row (`line`) of the ASCII grid (src/area_calc.py lines 96-107): one
character per x from -2·radius to 2·radius, `'*'` where the fill test holds
and `' '` elsewhere. -/
def circleRow (radius y : ℤ) : String :=
  String.mk ((intRange (-(2 * radius)) (2 * radius + 1)).map
    (fun x => if is_on_circle radius x y then '*' else ' '))

/-- The list `result` built by `draw_circle_ascii` (src/area_calc.py lines
83-109): one row string per y from -radius to radius. -/
def circleRows (radius : ℤ) : List String :=
  (intRange (-radius) (radius + 1)).map (fun y => circleRow radius y)

/-- Shallow embedding of `draw_circle_ascii(radius)` (src/area_calc.py lines
72-115): the rows joined with newlines (line 115).  The `show_calculation`
parameter only prints intermediate values and never affects the returned
string, so it is not modelled. -/
def draw_circle_ascii (radius : ℤ) : String :=
  String.intercalate "\n" (circleRows radius)

/-- The character of the rasterized grid at column x and row y: the row at
index y + radius of `result`, then the character at index x + 2·radius of
that row; `none` when the index is out of range. -/
def cellAt (radius x y : ℤ) : Option Char :=
  ((circleRows radius)[(y + radius).toNat]?).bind
    (fun row => row.data[(x + 2 * radius).toNat]?)

/-- C6 counterexample: in the radius-3 grid the middle row (y = 0) is blank
at x = 5 (at y = 0 the distance is x / 2, and |5 / 2 - 3| = 0.5 is not
strictly below 0.5), contradicting the claimed filled set {±5, ±6, ±7}. -/
theorem middle_row_x5_blank :
    cellAt 3 5 0 = some ' ' ∧ ¬ cellAt 3 5 0 = some '*' := by decide

/-- C6 amended: rasterizing radius 3 produces exactly 7 rows of 13 characters
each, and the middle row (y = 0) is filled exactly at x = -6 and x = 6
(x = ±5 and ±7 give |x / 2 - 3| ≥ 0.5, and x = ±7 is outside the column
range [-6, 6] anyway). -/
theorem rasterize_radius_three_exact :
    circleRows 3 =
      ["   *******   ",
       " **       ** ",
       "**         **",
       "*           *",
       "**         **",
       " **       ** ",
       "   *******   "] := by decide

/-- C8 counterexample: the rasterizer performs no validation at all.  At
radius 0 it returns the one-cell grid "*" and at radius -5 it returns the
empty string; neither non-positive radius is rejected. -/
theorem rasterizer_accepts_zero_radius :
    draw_circle_ascii 0 = "*" ∧ draw_circle_ascii (-5) = "" := by decide

/-- C8 amended: the rasterizer contains no radius validation: radius 0 yields
the single-cell grid "*" and a negative radius yields the empty string.
Non-positive radius is rejected only by main's check before the rasterizer
is called. -/
theorem rasterizer_no_validation :
    draw_circle_ascii 0 = "*" ∧ draw_circle_ascii (-5) = "" ∧
    main_compute 0 40 = Except.error MainError.invalidRadius := by
  refine ⟨by decide, by decide, ?_⟩
  unfold main_compute
  norm_num

/-- C10: draw_circle_ascii is a total function on ℤ; for every negative
radius both iteration ranges are empty, so the function returns the empty
string (zero rows) rather than failing. -/
theorem rasterizer_negative_radius_empty (r : ℤ) (hr : r < 0) :
    draw_circle_ascii r = "" := by
  have h : (r + 1 - -r).toNat = 0 := by omega
  unfold draw_circle_ascii circleRows intRange
  rw [h]
  rfl

theorem rasterizer_negative_radius_empty_witness :
    (-3 : ℤ) < 0 ∧ draw_circle_ascii (-3) = "" :=
  ⟨by decide, rasterizer_negative_radius_empty (-3) (by decide)⟩

theorem intRange_length (a b : ℤ) : (intRange a b).length = (b - a).toNat := by
  unfold intRange
  rw [List.length_map, List.length_range]

theorem intRange_getElem? (a b : ℤ) (i : ℕ) (hi : (i : ℤ) < b - a) :
    (intRange a b)[i]? = some (a + (i : ℤ)) := by
  unfold intRange
  rw [List.getElem?_map, List.getElem?_range (by omega : i < (b - a).toNat)]
  rfl

theorem cellAt_eq (r x y : ℤ) (hy1 : -r ≤ y) (hy2 : y ≤ r)
    (hx1 : -(2 * r) ≤ x) (hx2 : x ≤ 2 * r) :
    cellAt r x y = some (if is_on_circle r x y then '*' else ' ') := by
  have hyy : -r + (((y + r).toNat : ℕ) : ℤ) = y := by omega
  have hxx : -(2 * r) + (((x + 2 * r).toNat : ℕ) : ℤ) = x := by omega
  have h1 : (circleRows r)[(y + r).toNat]? = some (circleRow r y) := by
    unfold circleRows
    rw [List.getElem?_map,
      intRange_getElem? (-r) (r + 1) (y + r).toNat (by omega)]
    rw [Option.map_some', hyy]
  have h2 : (circleRow r y).data[(x + 2 * r).toNat]? =
      some (if is_on_circle r x y then '*' else ' ') := by
    show ((intRange (-(2 * r)) (2 * r + 1)).map
      (fun c => if is_on_circle r c y then '*' else ' '))[(x + 2 * r).toNat]? = _
    rw [List.getElem?_map,
      intRange_getElem? (-(2 * r)) (2 * r + 1) (x + 2 * r).toNat (by omega)]
    rw [Option.map_some']
    rw [hxx]
  unfold cellAt
  rw [h1, Option.some_bind]
  exact h2

theorem sqrt_band_iff (v : ℝ) (hv : 0 ≤ v) (r : ℤ) :
    |Real.sqrt v - (r : ℝ)| < 1 / 2 ↔
      ((0 ≤ r ∧ v < ((r : ℝ) + 1 / 2) ^ 2) ∧
       (r ≤ 0 ∨ ((r : ℝ) - 1 / 2) ^ 2 < v)) := by
  rw [abs_sub_lt_iff]
  have hs : 0 ≤ Real.sqrt v := Real.sqrt_nonneg v
  constructor
  · rintro ⟨h1, h2⟩
    have hupper : Real.sqrt v < (r : ℝ) + 1 / 2 := by linarith
    have hrpos : (0 : ℝ) < (r : ℝ) + 1 / 2 := lt_of_le_of_lt hs hupper
    have hr0 : 0 ≤ r := by
      have h3 : ((-1 : ℤ) : ℝ) < (r : ℝ) := by push_cast; linarith
      have h4 : (-1 : ℤ) < r := by exact_mod_cast h3
      omega
    refine ⟨⟨hr0, (Real.sqrt_lt' hrpos).mp hupper⟩, ?_⟩
    rcases le_or_lt r 0 with h | h
    · exact Or.inl h
    · refine Or.inr ?_
      have hlow : (r : ℝ) - 1 / 2 < Real.sqrt v := by linarith
      have h1r : (1 : ℤ) ≤ r := by omega
      have h1r' : (1 : ℝ) ≤ (r : ℝ) := by exact_mod_cast h1r
      have hx : (0 : ℝ) ≤ (r : ℝ) - 1 / 2 := by linarith
      exact (Real.lt_sqrt hx).mp hlow
  · rintro ⟨⟨hr0, hupper⟩, hlow⟩
    have hr0' : (0 : ℝ) ≤ (r : ℝ) := by exact_mod_cast hr0
    have hrpos : (0 : ℝ) < (r : ℝ) + 1 / 2 := by linarith
    have h1 : Real.sqrt v < (r : ℝ) + 1 / 2 := (Real.sqrt_lt' hrpos).mpr hupper
    have h2 : (r : ℝ) - 1 / 2 < Real.sqrt v := by
      rcases hlow with h | h
      · have hr0'' : (r : ℝ) ≤ 0 := by exact_mod_cast h
        linarith
      · rcases le_or_lt 0 ((r : ℝ) - 1 / 2) with hx | hx
        · exact (Real.lt_sqrt hx).mpr h
        · linarith
    exact ⟨by linarith, by linarith⟩

/-- The integer fill test coincides, for every integer radius and cell, with
the source formula `abs(sqrt((x / 2) ** 2 + y ** 2) - radius) < 0.5`
interpreted over the real numbers. -/
theorem is_on_circle_iff_dist (r x y : ℤ) :
    is_on_circle r x y = true ↔
      |Real.sqrt (((x : ℝ) / 2) ^ 2 + (y : ℝ) ^ 2) - (r : ℝ)| < 0.5 := by
  have hN : (0 : ℤ) ≤ x ^ 2 + 4 * y ^ 2 := by positivity
  have hv : ((x : ℝ) / 2) ^ 2 + (y : ℝ) ^ 2 = ((x ^ 2 + 4 * y ^ 2 : ℤ) : ℝ) / 4 := by
    push_cast
    ring
  have hvnn : (0 : ℝ) ≤ ((x ^ 2 + 4 * y ^ 2 : ℤ) : ℝ) / 4 := by
    have hc : (0 : ℝ) ≤ ((x ^ 2 + 4 * y ^ 2 : ℤ) : ℝ) := by exact_mod_cast hN
    linarith
  have h05 : (0.5 : ℝ) = 1 / 2 := by norm_num
  have hup : (((2 * r + 1) ^ 2 : ℤ) : ℝ) = ((r : ℝ) + 1 / 2) ^ 2 * 4 := by
    push_cast
    ring
  have hdown : (((2 * r - 1) ^ 2 : ℤ) : ℝ) = ((r : ℝ) - 1 / 2) ^ 2 * 4 := by
    push_cast
    ring
  rw [hv, h05, sqrt_band_iff _ hvnn r]
  simp only [is_on_circle, decide_eq_true_eq]
  constructor
  · rintro ⟨⟨h1, h2⟩, h3⟩
    refine ⟨⟨h1, ?_⟩, ?_⟩
    · have hcast : ((x ^ 2 + 4 * y ^ 2 : ℤ) : ℝ) < (((2 * r + 1) ^ 2 : ℤ) : ℝ) := by
        exact_mod_cast h2
      linarith
    · rcases h3 with h | h
      · exact Or.inl h
      · refine Or.inr ?_
        have hcast : (((2 * r - 1) ^ 2 : ℤ) : ℝ) < ((x ^ 2 + 4 * y ^ 2 : ℤ) : ℝ) := by
          exact_mod_cast h
        linarith
  · rintro ⟨⟨h1, h2⟩, h3⟩
    refine ⟨⟨h1, ?_⟩, ?_⟩
    · have hcast : ((x ^ 2 + 4 * y ^ 2 : ℤ) : ℝ) < (((2 * r + 1) ^ 2 : ℤ) : ℝ) := by
        linarith
      exact_mod_cast hcast
    · rcases h3 with h | h
      · exact Or.inl h
      · refine Or.inr ?_
        have hcast : (((2 * r - 1) ^ 2 : ℤ) : ℝ) < ((x ^ 2 + 4 * y ^ 2 : ℤ) : ℝ) := by
          linarith
        exact_mod_cast hcast

theorem circleRow_length (r y : ℤ) :
    (circleRow r y).length = (2 * r + 1 - -(2 * r)).toNat := by
  show ((intRange (-(2 * r)) (2 * r + 1)).map
    (fun c => if is_on_circle r c y then '*' else ' ')).length = _
  rw [List.length_map, intRange_length]

/-- C2: for every integer radius r > 0 the rasterizer produces exactly 2r+1
rows (one per y from -r to r inclusive), each of length 4r+1 (one cell per x
from -2r to 2r inclusive), and the cell at (x, y) is '*' exactly when
|sqrt((x/2)² + y²) - r| < 0.5, and a space otherwise. -/
theorem rasterizer_shape_and_cell_spec (r : ℤ) (hr : 0 < r) :
    (((circleRows r).length : ℤ) = 2 * r + 1) ∧
    (∀ row ∈ circleRows r, ((row.length : ℤ) = 4 * r + 1)) ∧
    (∀ x y : ℤ, -r ≤ y → y ≤ r → -(2 * r) ≤ x → x ≤ 2 * r →
      ((cellAt r x y = some '*' ↔
         |Real.sqrt (((x : ℝ) / 2) ^ 2 + (y : ℝ) ^ 2) - ((r : ℤ) : ℝ)| < 0.5) ∧
       (cellAt r x y = some '*' ∨ cellAt r x y = some ' '))) := by
  refine ⟨?_, ?_, ?_⟩
  · show (((intRange (-r) (r + 1)).map (fun q => circleRow r q)).length : ℤ) = 2 * r + 1
    rw [List.length_map, intRange_length]
    omega
  · intro row hrow
    have hrow' : row ∈ (intRange (-r) (r + 1)).map (fun q => circleRow r q) := hrow
    rcases List.mem_map.mp hrow' with ⟨q, hq, hqeq⟩
    rw [← hqeq, circleRow_length]
    omega
  · intro x y hy1 hy2 hx1 hx2
    have hcell := cellAt_eq r x y hy1 hy2 hx1 hx2
    cases hb : is_on_circle r x y with
    | true =>
      have hstar : cellAt r x y = some '*' := by rw [hcell, hb]; rfl
      exact ⟨⟨fun _ => (is_on_circle_iff_dist r x y).mp hb, fun _ => hstar⟩,
        Or.inl hstar⟩
    | false =>
      have hblank : cellAt r x y = some ' ' := by rw [hcell, hb]; rfl
      refine ⟨⟨?_, ?_⟩, Or.inr hblank⟩
      · intro hcontr
        rw [hblank] at hcontr
        exact absurd (Option.some.inj hcontr) (by decide)
      · intro hdist
        have hb' : is_on_circle r x y = true := (is_on_circle_iff_dist r x y).mpr hdist
        rw [hb] at hb'
        exact absurd hb' (by decide)

theorem rasterizer_shape_and_cell_spec_witness :
    (0 : ℤ) < 1 ∧
    ((((circleRows 1).length : ℤ) = 2 * 1 + 1) ∧
     (∀ row ∈ circleRows 1, ((row.length : ℤ) = 4 * 1 + 1)) ∧
     (∀ x y : ℤ, -1 ≤ y → y ≤ 1 → -(2 * 1) ≤ x → x ≤ 2 * 1 →
       ((cellAt 1 x y = some '*' ↔
          |Real.sqrt (((x : ℝ) / 2) ^ 2 + (y : ℝ) ^ 2) - ((1 : ℤ) : ℝ)| < 0.5) ∧
        (cellAt 1 x y = some '*' ∨ cellAt 1 x y = some ' ')))) :=
  ⟨by decide, rasterizer_shape_and_cell_spec 1 (by decide)⟩

/-- C9: the rasterized grid of a positive radius is symmetric under
horizontal and vertical mirroring: the cell at (x, y) equals the cell at
(-x, y) and equals the cell at (x, -y). -/
theorem rasterizer_mirror_symmetry (r x y : ℤ) (hr : 0 < r)
    (hy1 : -r ≤ y) (hy2 : y ≤ r) (hx1 : -(2 * r) ≤ x) (hx2 : x ≤ 2 * r) :
    cellAt r x y = cellAt r (-x) y ∧ cellAt r x y = cellAt r x (-y) := by
  have hnegx : is_on_circle r (-x) y = is_on_circle r x y := by
    simp only [is_on_circle, neg_sq]
  have hnegy : is_on_circle r x (-y) = is_on_circle r x y := by
    simp only [is_on_circle, neg_sq]
  rw [cellAt_eq r x y hy1 hy2 hx1 hx2,
    cellAt_eq r (-x) y hy1 hy2 (by omega) (by omega),
    cellAt_eq r x (-y) (by omega) (by omega) hx1 hx2,
    hnegx, hnegy]
  exact ⟨rfl, rfl⟩

theorem rasterizer_mirror_symmetry_witness :
    (0 : ℤ) < 2 ∧
    (cellAt 2 3 1 = cellAt 2 (-3) 1 ∧ cellAt 2 3 1 = cellAt 2 3 (-1)) :=
  ⟨by decide,
    rasterizer_mirror_symmetry 2 3 1 (by decide) (by decide) (by decide)
      (by decide) (by decide)⟩
